import Mathlib

/-!
Verification of the ARG raster codec against the test suite
`autotest/gdrivers/arg.py`.

The test suite contains the reference encoder (`pack` / `encode`, built on
Python 3 `struct.pack` with big-endian fixed-width formats) and the table of
per-type nodata sentinels.  The ARG driver itself (decoder, nodata query,
geotransform derivation) is not in the source tree; those operations are
modelled from the specification, and each such definition is marked
`Modelled from the spec:` in its doc comment.

Numeric cells are embedded as `Option Int`:
* for integer data types the `Int` is the numeric value itself;
* for the floating data types the `Int` is the (nonnegative) IEEE-754 bit
  pattern of the value, so that byte-level properties (round trips, NaN
  recognition) are stated exactly; real-valued float arithmetic is never
  needed by the claims.
-/

deriving instance DecidableEq for Except

namespace Arg

/-- The ten data-type tags recognized by the ARG format
(`arg.py` lines 102-128). -/
inductive DataType where
  | int8 | int16 | int32 | int64
  | uint8 | uint16 | uint32 | uint64
  | float32 | float64
deriving DecidableEq, Repr

/-- Byte width of one cell of each data type, as used by the struct formats
`>b >h >i >q >B >H >I >Q >f >d`. -/
def width : DataType → Nat
  | .int8 => 1 | .int16 => 2 | .int32 => 4 | .int64 => 8
  | .uint8 => 1 | .uint16 => 2 | .uint32 => 4 | .uint64 => 8
  | .float32 => 4 | .float64 => 8

/-- Bit width of one cell. -/
def bitsOf (t : DataType) : Nat := 8 * width t

/-- Signed integer types (struct formats `>b >h >i >q`). -/
def isSigned : DataType → Bool
  | .int8 | .int16 | .int32 | .int64 => true
  | _ => false

/-- Floating types (struct formats `>f >d`). -/
def isFloat : DataType → Bool
  | .float32 | .float64 => true
  | _ => false

/-- Smallest value accepted by `struct.pack` for an integer format. -/
def intMin (t : DataType) : Int :=
  if isSigned t then -(2 ^ (bitsOf t - 1)) else 0

/-- Largest value accepted by `struct.pack` for an integer format. -/
def intMax (t : DataType) : Int :=
  if isSigned t then 2 ^ (bitsOf t - 1) - 1 else 2 ^ bitsOf t - 1

/-- Domain check of one cell value: Python 3 `struct.pack` range-checks every
standard-size integer format and raises `struct.error` outside
`[intMin, intMax]`.  For the floating types the embedded value is a bit
pattern, so the domain is `[0, 2^bits)`. -/
def inRange (t : DataType) (v : Int) : Bool :=
  if isFloat t then decide (0 ≤ v) && decide (v < 2 ^ bitsOf t)
  else decide (intMin t ≤ v) && decide (v ≤ intMax t)

/-- The error raised by Python 3 `struct.pack` when an integer argument is
outside the representable range of the format. -/
inductive EncodeError where
  | rangeError
deriving DecidableEq, Repr

/-- Decoder failure: buffer length inconsistent with the cell count. -/
inductive DecodeError where
  | truncatedData
deriving DecidableEq, Repr

/-- Big-endian bytes of `n`, exactly `w` bytes (the low `8*w` bits of `n`);
each output byte is below 256. -/
def toBytesBE : Nat → Nat → List Nat
  | 0, _ => []
  | w + 1, n => toBytesBE w (n / 256) ++ [n % 256]

/-- Big-endian reassembly of a byte list into a natural number. -/
def fromBytesBE (l : List Nat) : Nat :=
  l.foldl (fun acc b => acc * 256 + b) 0

/-- `struct.pack(fmt, v)` for a big-endian fixed-width format: range-check,
then emit the two's-complement (resp. unsigned / bit-pattern) bytes,
most significant first. -/
def packValue (t : DataType) (v : Int) : Except EncodeError (List Nat) :=
  if inRange t v then
    .ok (toBytesBE (width t) (v % (2 : Int) ^ bitsOf t).toNat)
  else
    .error .rangeError

/-- `pack(fmt, nodata, value)` from `arg.py` lines 54-57: an absent value is
replaced by the nodata sentinel, then packed with `struct.pack`. -/
def pack (t : DataType) (nodata : Int) (value : Option Int) :
    Except EncodeError (List Nat) :=
  packValue t (value.getD nodata)

/-- `encode(fmt, nodata, values)` from `arg.py` lines 63-65: pack each value
and join the chunks with the empty byte string (plain concatenation); the
first failing `struct.pack` aborts the whole call. -/
def encode (t : DataType) (nodata : Int) (values : List (Option Int)) :
    Except EncodeError (List Nat) :=
  match values with
  | [] => .ok []
  | v :: vs => do
    let chunk ← pack t nodata v
    let rest ← encode t nodata vs
    pure (chunk ++ rest)

/-- The per-type nodata sentinel, from the `formats` table of `arg.py`
lines 102-128.  For the floating types the table uses `gdaltest.NaN()`, whose
big-endian packing is the canonical quiet NaN; that bit pattern
(`0x7FC00000` / `0x7FF8000000000000`) is used here. -/
def nodata : DataType → Int
  | .int8 => -(2 ^ 7)
  | .int16 => -(2 ^ 15)
  | .int32 => -(2 ^ 31)
  | .int64 => -(2 ^ 63)
  | .uint8 => 2 ^ 8 - 1
  | .uint16 => 2 ^ 16 - 1
  | .uint32 => 2 ^ 32 - 1
  | .uint64 => 2 ^ 64 - 1
  | .float32 => 0x7FC00000
  | .float64 => 0x7FF8000000000000

/-- IEEE-754 single-precision NaN test on a 32-bit pattern: exponent field
all ones and mantissa nonzero. -/
def isNaN32 (n : Nat) : Bool :=
  decide ((n / 2 ^ 23) % 2 ^ 8 = 2 ^ 8 - 1) && decide (n % 2 ^ 23 ≠ 0)

/-- IEEE-754 double-precision NaN test on a 64-bit pattern: exponent field
all ones and mantissa nonzero. -/
def isNaN64 (n : Nat) : Bool :=
  decide ((n / 2 ^ 52) % 2 ^ 11 = 2 ^ 11 - 1) && decide (n % 2 ^ 52 ≠ 0)

/-- NaN test for the bit pattern of a cell of type `t`; `false` on integer
types. -/
def isNaN (t : DataType) (n : Nat) : Bool :=
  match t with
  | .float32 => isNaN32 n
  | .float64 => isNaN64 n
  | _ => false

/-- A present value that the decoder would report as absent: for integer
types, numeric equality with the sentinel; for floating types, any NaN bit
pattern (numeric equality with NaN is always false, so the is-NaN predicate
is the only meaningful test). -/
def isNodataValue (t : DataType) (v : Int) : Bool :=
  if isFloat t then isNaN t v.toNat else decide (v = nodata t)

/-- A cell value the round-trip guarantee applies to: in the type's domain
and not identified with the nodata sentinel. -/
def goodValue (t : DataType) (v : Int) : Bool :=
  inRange t v && !(isNodataValue t v)

/-- Pointwise `goodValue` on a cell; absent cells are always fine. -/
def goodCell (t : DataType) : Option Int → Bool
  | none => true
  | some v => goodValue t v

/-- `goodCell` on a whole row-major sequence. -/
def goodCells (t : DataType) (v : List (Option Int)) : Bool :=
  v.all (goodCell t)

/-- Two's-complement reading of a `b`-bit pattern. -/
def toSigned (b : Nat) (n : Nat) : Int :=
  if n < 2 ^ (b - 1) then (n : Int) else (n : Int) - 2 ^ b

/-- Modelled from the spec: one cell of the ARG driver's decoder (the driver
itself is not in the source tree, only its tests).  The big-endian bytes are
reassembled; an integer value equal to the type's nodata sentinel is reported
absent, a floating cell is reported absent exactly when its bits form a NaN
pattern. -/
def decodeCell (t : DataType) (chunk : List Nat) : Option Int :=
  let n := fromBytesBE chunk
  if isFloat t then
    if isNaN t n then none else some (n : Int)
  else
    let v : Int := if isSigned t then toSigned (bitsOf t) n else (n : Int)
    if v = nodata t then none else some v

/-- Modelled from the spec: the decoder's scan of `count` consecutive
fixed-width cells from the front of the buffer. -/
def decodeCells (t : DataType) : Nat → List Nat → List (Option Int)
  | 0, _ => []
  | k + 1, buf =>
    decodeCell t (buf.take (width t)) :: decodeCells t k (buf.drop (width t))

/-- Modelled from the spec: `decode(dataType, buffer, cellCount)` of the ARG
driver (not in the source tree).  Fails with `TruncatedDataError` when
`len(buffer) != cellCount * width(dataType)`; otherwise reads exactly
`cellCount` big-endian fixed-width values. -/
def decode (t : DataType) (buffer : List Nat) (cellCount : Nat) :
    Except DecodeError (List (Option Int)) :=
  if buffer.length = cellCount * width t then
    .ok (decodeCells t cellCount buffer)
  else
    .error .truncatedData

/-- Modelled from the spec: the driver's answer to a nodata query (the test
`test_arg_nodata` asserts the int8 answer is `128`, the bit pattern of `-128`
reinterpreted unsigned; the driver is not in the source tree). -/
def nodataQuery (t : DataType) : Int :=
  match t with
  | .int8 => 128
  | _ => nodata t

/-- Grid metadata of an ARG dataset (JSON sidecar fields); the geographic
fields are embedded as rationals. -/
structure GridMetadata where
  layerName : String
  dataType : DataType
  xmin : Rat
  ymin : Rat
  xmax : Rat
  ymax : Rat
  cellWidth : Rat
  cellHeight : Rat
  rows : Nat
  cols : Nat

/-- The metadata used throughout the test suite (`argDefaults`,
`arg.py` lines 90-99, with the int16 layer). -/
def argDefaultsMeta : GridMetadata :=
  { layerName := "arg-int16"
    dataType := DataType.int16
    xmin := 0, ymin := 0, xmax := 2, ymax := 2
    cellWidth := 1, cellHeight := 1
    rows := 2, cols := 2 }

/-- Modelled from the spec: the geotransform the driver derives from the
metadata (the driver is not in the source tree; `test_arg_getgeotransform`
checks one concrete instance).  Origin `(xmin, ymax)`, pixel width
`cellWidth`, pixel height `-cellHeight`, north-up. -/
def geotransform (m : GridMetadata) : Rat × Rat × Rat × Rat × Rat × Rat :=
  (m.xmin, m.cellWidth, 0, m.ymax, 0, -m.cellHeight)

/-! ### Byte-level helper lemmas -/

theorem toBytesBE_length (w n : Nat) : (toBytesBE w n).length = w := by
  induction w generalizing n with
  | zero => rfl
  | succ w ih => simp [toBytesBE, ih]

theorem fromBytesBE_append_one (l : List Nat) (b : Nat) :
    fromBytesBE (l ++ [b]) = fromBytesBE l * 256 + b := by
  simp [fromBytesBE, List.foldl_append]

theorem fromBytesBE_toBytesBE (w n : Nat) :
    fromBytesBE (toBytesBE w n) = n % 256 ^ w := by
  induction w generalizing n with
  | zero => simp [toBytesBE, fromBytesBE, Nat.mod_one]
  | succ w ih =>
    rw [toBytesBE, fromBytesBE_append_one, ih,
      show (256 : Nat) ^ (w + 1) = 256 * 256 ^ w by ring]
    have h := @Nat.mod_mul 256 (256 ^ w) n
    omega

theorem fromBytes_pack (w b : Nat) (hb : b = 8 * w) (v : Int) :
    fromBytesBE (toBytesBE w (v % (2 : Int) ^ b).toNat) =
      (v % (2 : Int) ^ b).toNat := by
  rw [fromBytesBE_toBytesBE]
  have h256 : (256 : Nat) ^ w = 2 ^ b := by
    rw [hb, show (256 : Nat) = 2 ^ 8 from rfl, ← pow_mul]
  have hpos : (0 : Int) < 2 ^ b := by positivity
  have h1 : 0 ≤ v % (2 : Int) ^ b := Int.emod_nonneg v (by omega)
  have h2 : v % (2 : Int) ^ b < 2 ^ b := Int.emod_lt_of_pos v hpos
  have hcast : ((2 ^ b : Nat) : Int) = (2 : Int) ^ b := by push_cast; rfl
  rw [h256]
  apply Nat.mod_eq_of_lt
  omega

theorem toSigned_emod (b : Nat) (hb : 0 < b) (v : Int)
    (hlo : -((2 : Int) ^ (b - 1)) ≤ v) (hhi : v ≤ (2 : Int) ^ (b - 1) - 1) :
    toSigned b (v % (2 : Int) ^ b).toNat = v := by
  have hsplitI : (2 : Int) ^ b = 2 * (2 : Int) ^ (b - 1) := by
    conv_lhs => rw [show b = (b - 1) + 1 by omega]
    rw [pow_succ]
    ring
  have hcast : ((2 ^ (b - 1) : Nat) : Int) = (2 : Int) ^ (b - 1) := by
    push_cast
    ring
  have hposI : (0 : Int) < 2 ^ (b - 1) := by positivity
  unfold toSigned
  by_cases hv : 0 ≤ v
  · have hmod : v % (2 : Int) ^ b = v := Int.emod_eq_of_lt hv (by omega)
    rw [hmod]
    have h2 : v.toNat < 2 ^ (b - 1) := by omega
    rw [if_pos h2]
    omega
  · have hmod : v % (2 : Int) ^ b = v + 2 ^ b := by
      have h1 : (v + 2 ^ b) % (2 : Int) ^ b = v % (2 : Int) ^ b := by
        simp
      rw [← h1]
      exact Int.emod_eq_of_lt (by omega) (by omega)
    rw [hmod]
    have hge : ¬ ((v + 2 ^ b).toNat < 2 ^ (b - 1)) := by omega
    rw [if_neg hge]
    omega

theorem unsigned_emod (b : Nat) (v : Int) (h0 : 0 ≤ v)
    (hlt : v < (2 : Int) ^ b) : ((v % (2 : Int) ^ b).toNat : Int) = v := by
  rw [Int.emod_eq_of_lt h0 hlt]
  exact Int.toNat_of_nonneg h0

theorem encode_cons (t : DataType) (nd : Int) (c : Option Int)
    (cs : List (Option Int)) :
    encode t nd (c :: cs) = (pack t nd c).bind
      (fun chunk => (encode t nd cs).bind
        (fun rest => .ok (chunk ++ rest))) := rfl

theorem exBind_ok {α β ε : Type} (a : α) (f : α → Except ε β) :
    (Except.ok a : Except ε α).bind f = f a := rfl

theorem exBind_error {α β ε : Type} (e : ε) (f : α → Except ε β) :
    (Except.error e : Except ε α).bind f = .error e := rfl

theorem pack_length (t : DataType) (nd : Int) (c : Option Int)
    (chunk : List Nat) (h : pack t nd c = .ok chunk) :
    chunk.length = width t := by
  unfold pack packValue at h
  split at h
  · cases h
    exact toBytesBE_length _ _
  · cases h

theorem decodeCell_pack_signed (t : DataType) (hf : isFloat t = false)
    (hs : isSigned t = true) (hw : 0 < width t) (a : Int)
    (hlo : intMin t ≤ a) (hhi : a ≤ intMax t) (hnz : a ≠ nodata t) :
    decodeCell t (toBytesBE (width t) ((a % (2 : Int) ^ bitsOf t).toNat)) =
      some a := by
  have hb : 0 < bitsOf t := by
    unfold bitsOf
    omega
  have hmin : intMin t = -((2 : Int) ^ (bitsOf t - 1)) := by simp [intMin, hs]
  have hmax : intMax t = (2 : Int) ^ (bitsOf t - 1) - 1 := by simp [intMax, hs]
  have hfp := fromBytes_pack (width t) (bitsOf t) rfl a
  have hts : toSigned (bitsOf t) ((a % (2 : Int) ^ bitsOf t).toNat) = a :=
    toSigned_emod (bitsOf t) hb a (by omega) (by omega)
  simp [decodeCell, hf, hs, hfp, hts, hnz]

theorem decodeCell_pack_unsigned (t : DataType) (hf : isFloat t = false)
    (hs : isSigned t = false) (a : Int)
    (hlo : intMin t ≤ a) (hhi : a ≤ intMax t) (hnz : a ≠ nodata t) :
    decodeCell t (toBytesBE (width t) ((a % (2 : Int) ^ bitsOf t).toNat)) =
      some a := by
  have hmin : intMin t = 0 := by simp [intMin, hs]
  have hmax : intMax t = (2 : Int) ^ bitsOf t - 1 := by simp [intMax, hs]
  have hfp := fromBytes_pack (width t) (bitsOf t) rfl a
  have hu : (((a % (2 : Int) ^ bitsOf t).toNat : Nat) : Int) = a :=
    unsigned_emod (bitsOf t) a (by omega) (by omega)
  simp [decodeCell, hf, hs, hfp, hu, hnz]

theorem decodeCell_pack_float (t : DataType) (hf : isFloat t = true)
    (a : Int) (h0 : 0 ≤ a) (hlt : a < (2 : Int) ^ bitsOf t)
    (hnan : isNaN t a.toNat = false) :
    decodeCell t (toBytesBE (width t) ((a % (2 : Int) ^ bitsOf t).toNat)) =
      some a := by
  have hfp := fromBytes_pack (width t) (bitsOf t) rfl a
  have hmod : a % (2 : Int) ^ bitsOf t = a := Int.emod_eq_of_lt h0 hlt
  rw [hmod] at hfp
  simp [decodeCell, hf, hfp, hmod, hnan, Int.toNat_of_nonneg h0]

theorem pack_decode_cell (t : DataType) (c : Option Int)
    (hc : goodCell t c = true) :
    ∃ chunk, pack t (nodata t) c = .ok chunk ∧ chunk.length = width t ∧
      decodeCell t chunk = c := by
  cases c with
  | none =>
    cases t <;> exact ⟨_, rfl, by decide, by decide⟩
  | some a =>
    have hc2 : inRange t a = true ∧ isNodataValue t a = false := by
      simp [goodCell, goodValue] at hc
      exact ⟨hc.1, by simp [hc.2]⟩
    obtain ⟨hin, hnod⟩ := hc2
    have hpack : pack t (nodata t) (some a) =
        .ok (toBytesBE (width t) ((a % (2 : Int) ^ bitsOf t).toNat)) := by
      simp [pack, packValue, hin]
    refine ⟨_, hpack, toBytesBE_length _ _, ?_⟩
    have hint : isFloat t = false → intMin t ≤ a ∧ a ≤ intMax t := by
      intro hfl
      simp [inRange, hfl] at hin
      exact hin
    have hflt : isFloat t = true → 0 ≤ a ∧ a < (2 : Int) ^ bitsOf t := by
      intro hfl
      simp [inRange, hfl] at hin
      exact hin
    have hninti : isFloat t = false → a ≠ nodata t := by
      intro hfl
      simp [isNodataValue, hfl] at hnod
      exact hnod
    have hnflt : isFloat t = true → isNaN t a.toNat = false := by
      intro hfl
      simpa [isNodataValue, hfl] using hnod
    cases t
    case int8 | int16 | int32 | int64 =>
      apply decodeCell_pack_signed <;>
        first
          | rfl
          | decide
          | exact (hint rfl).1
          | exact (hint rfl).2
          | exact hninti rfl
    case uint8 | uint16 | uint32 | uint64 =>
      apply decodeCell_pack_unsigned <;>
        first
          | rfl
          | exact (hint rfl).1
          | exact (hint rfl).2
          | exact hninti rfl
    case float32 | float64 =>
      apply decodeCell_pack_float <;>
        first
          | rfl
          | exact (hflt rfl).1
          | exact (hflt rfl).2
          | exact hnflt rfl

theorem encode_decodeCells (t : DataType) (v : List (Option Int))
    (hv : goodCells t v = true) :
    ∃ bytes, encode t (nodata t) v = .ok bytes ∧
      bytes.length = v.length * width t ∧
      decodeCells t v.length bytes = v := by
  induction v with
  | nil => exact ⟨[], rfl, by simp, rfl⟩
  | cons c cs ih =>
    have hc : goodCell t c = true ∧ goodCells t cs = true := by
      simpa [goodCells] using hv
    obtain ⟨chunk, hpk, hlen, hdec⟩ := pack_decode_cell t c hc.1
    obtain ⟨bytes, henc, hblen, hbdec⟩ := ih hc.2
    refine ⟨chunk ++ bytes, ?_, ?_, ?_⟩
    · rw [encode_cons, hpk, exBind_ok, henc, exBind_ok]
    · simp only [List.length_append, List.length_cons, hlen, hblen]
      ring
    · show decodeCells t (cs.length + 1) (chunk ++ bytes) = c :: cs
      rw [decodeCells, List.take_left' hlen, List.drop_left' hlen, hdec, hbdec]

theorem decodeCells_length (t : DataType) (k : Nat) (buf : List Nat) :
    (decodeCells t k buf).length = k := by
  induction k generalizing buf with
  | zero => rfl
  | succ k ih => simp [decodeCells, ih]

theorem decodeCells_getElem (t : DataType) (k : Nat) (buf : List Nat)
    (i : Nat) (hi : i < k) :
    (decodeCells t k buf)[i]? =
      some (decodeCell t ((buf.drop (i * width t)).take (width t))) := by
  induction k generalizing buf i with
  | zero => omega
  | succ k ih =>
    cases i with
    | zero => simp [decodeCells]
    | succ i =>
      rw [decodeCells, List.getElem?_cons_succ,
        ih (buf.drop (width t)) i (by omega), List.drop_drop,
        show width t + i * width t = (i + 1) * width t by ring]

/-! ### Claim theorems -/

/-- C1: for every supported data type `t` and every row-major sequence of
`rows * cols` cells whose present values are in the type's domain and are not
identified with the nodata sentinel (integer equality with the sentinel, NaN
bit pattern for floats — the claim's documented exception), decoding the
encoding returns the original sequence. -/
theorem arg_roundtrip (t : DataType) (rows cols : Nat)
    (v : List (Option Int)) (hlen : v.length = rows * cols)
    (hgood : goodCells t v = true) :
    ∃ bytes, encode t (nodata t) v = .ok bytes ∧
      decode t bytes (rows * cols) = .ok v := by
  obtain ⟨bytes, henc, hblen, hdec⟩ := encode_decodeCells t v hgood
  refine ⟨bytes, henc, ?_⟩
  rw [decode, if_pos (by rw [hblen, hlen]), ← hlen, hdec]

/-- Witness for C1: the int16 round trip of the test suite. -/
theorem arg_roundtrip_witness :
    ∃ bytes,
      encode DataType.int16 (nodata DataType.int16)
          [none, some 2, some (-3), some (-4)] = .ok bytes ∧
      decode DataType.int16 bytes (2 * 2) =
        .ok [none, some 2, some (-3), some (-4)] :=
  arg_roundtrip DataType.int16 2 2 [none, some 2, some (-3), some (-4)]
    (by decide) (by decide)

/-- C2: the fixed nodata sentinel of each data type: minimum representable
value for signed integers, maximum representable value for unsigned integers,
an IEEE-754 NaN for the floating types. -/
theorem nodata_sentinels :
    nodata DataType.int8 = -(2 ^ 7) ∧
      nodata DataType.int8 = intMin DataType.int8 ∧
    nodata DataType.int16 = -(2 ^ 15) ∧
      nodata DataType.int16 = intMin DataType.int16 ∧
    nodata DataType.int32 = -(2 ^ 31) ∧
      nodata DataType.int32 = intMin DataType.int32 ∧
    nodata DataType.int64 = -(2 ^ 63) ∧
      nodata DataType.int64 = intMin DataType.int64 ∧
    nodata DataType.uint8 = 2 ^ 8 - 1 ∧
      nodata DataType.uint8 = intMax DataType.uint8 ∧
    nodata DataType.uint16 = 2 ^ 16 - 1 ∧
      nodata DataType.uint16 = intMax DataType.uint16 ∧
    nodata DataType.uint32 = 2 ^ 32 - 1 ∧
      nodata DataType.uint32 = intMax DataType.uint32 ∧
    nodata DataType.uint64 = 2 ^ 64 - 1 ∧
      nodata DataType.uint64 = intMax DataType.uint64 ∧
    isNaN DataType.float32 (nodata DataType.float32).toNat = true ∧
    isNaN DataType.float64 (nodata DataType.float64).toNat = true := by
  decide

/-- C3 counterexample: the source does not silently wrap an out-of-range
value; Python 3 struct packing raises on 128 for the int8 format, so encode
neither succeeds nor emits the wrapped byte 128 % 256. -/
theorem encode_no_silent_wrap :
    encode DataType.int8 (nodata DataType.int8) [some 128] =
      .error EncodeError.rangeError ∧
    encode DataType.int8 (nodata DataType.int8) [some 128] ≠
      .ok [128] := by
  decide

/-- C3 amended: for every integer data type, a present value outside the
representable range makes encode fail with the struct packing range error
(not a ValueRangeError, and with no wrapped bytes emitted). -/
theorem encode_out_of_range (t : DataType) (nd a : Int)
    (vs : List (Option Int)) (_hint : isFloat t = false)
    (hr : inRange t a = false) :
    encode t nd (some a :: vs) = .error EncodeError.rangeError := by
  have hp : pack t nd (some a) = .error EncodeError.rangeError := by
    simp [pack, packValue, hr]
  rw [encode_cons, hp, exBind_error]

/-- Witness for the amended C3: int8 rejects 200. -/
theorem encode_out_of_range_witness :
    encode DataType.int8 0 [some 200] = .error EncodeError.rangeError :=
  encode_out_of_range DataType.int8 0 200 [] rfl (by decide)

/-- C4: the int8 nodata sentinel is stored as the two's-complement byte of
-128 (0x80 = 128), while the nodata query for int8 answers the unsigned
value 128. -/
theorem int8_nodata_duality :
    encode DataType.int8 (nodata DataType.int8) [none] = .ok [128] ∧
    nodata DataType.int8 = -128 ∧
    nodataQuery DataType.int8 = 128 := by
  decide

/-- C5: a floating cell decodes as absent exactly when its bits form a NaN
pattern — any NaN pattern, not only the canonical sentinel; a non-NaN
pattern (for instance infinity) is present. -/
theorem decode_float_nan :
    (∀ b0 b1 b2 b3 : Nat,
      (decodeCell DataType.float32 [b0, b1, b2, b3] = none ↔
        isNaN32 (fromBytesBE [b0, b1, b2, b3]) = true)) ∧
    (∀ b0 b1 b2 b3 b4 b5 b6 b7 : Nat,
      (decodeCell DataType.float64 [b0, b1, b2, b3, b4, b5, b6, b7] = none ↔
        isNaN64 (fromBytesBE [b0, b1, b2, b3, b4, b5, b6, b7]) = true)) ∧
    decodeCell DataType.float32 [0x7F, 0x80, 0x00, 0x01] = none ∧
    decodeCell DataType.float32 [0x7F, 0xC0, 0x00, 0x00] = none ∧
    decodeCell DataType.float32 [0x7F, 0x80, 0x00, 0x00] =
      some 0x7F800000 := by
  refine ⟨?_, ?_, by decide, by decide, by decide⟩
  · intro b0 b1 b2 b3
    by_cases h : isNaN32 (fromBytesBE [b0, b1, b2, b3]) = true <;>
      simp [decodeCell, isNaN, isFloat, h]
  · intro b0 b1 b2 b3 b4 b5 b6 b7
    by_cases h : isNaN64 (fromBytesBE [b0, b1, b2, b3, b4, b5, b6, b7]) =
        true <;>
      simp [decodeCell, isNaN, isFloat, h]

/-- C6: decode fails with the truncation error exactly when the buffer
length differs from `cellCount * width t`; otherwise it returns `cellCount`
cells, the i-th decoded from the i-th big-endian fixed-width chunk. -/
theorem decode_contract (t : DataType) (buffer : List Nat)
    (cellCount : Nat) :
    (buffer.length ≠ cellCount * width t →
      decode t buffer cellCount = .error DecodeError.truncatedData) ∧
    (buffer.length = cellCount * width t →
      ∃ out, decode t buffer cellCount = .ok out ∧
        out.length = cellCount ∧
        ∀ i, i < cellCount →
          out[i]? = some (decodeCell t
            ((buffer.drop (i * width t)).take (width t)))) := by
  constructor
  · intro h
    rw [decode, if_neg h]
  · intro h
    exact ⟨decodeCells t cellCount buffer, by rw [decode, if_pos h],
      decodeCells_length t cellCount buffer,
      fun i hi => decodeCells_getElem t cellCount buffer i hi⟩

/-- Witness for C6: a 3-byte buffer is rejected for two int16 cells, and a
4-byte buffer decodes two int16 cells. -/
theorem decode_contract_witness :
    decode DataType.int16 [0, 1, 2] 2 = .error DecodeError.truncatedData ∧
    ∃ out, decode DataType.int16 [0, 1, 0, 2] 2 = .ok out ∧
      out.length = 2 ∧
      ∀ i, i < 2 →
        out[i]? = some (decodeCell DataType.int16
          (([0, 1, 0, 2].drop (i * width DataType.int16)).take
            (width DataType.int16))) :=
  ⟨(decode_contract DataType.int16 [0, 1, 2] 2).1 (by decide),
    (decode_contract DataType.int16 [0, 1, 0, 2] 2).2 (by decide)⟩

/-- C7: the int16 test vector: encoding `[None, 2, -3, -4]` gives the eight
bytes 80 00 00 02 FF FD FF FC, and decoding them with cellCount 4 returns
`[None, 2, -3, -4]`. -/
theorem int16_concrete_vector :
    encode DataType.int16 (nodata DataType.int16)
        [none, some 2, some (-3), some (-4)] =
      .ok [0x80, 0x00, 0x00, 0x02, 0xFF, 0xFD, 0xFF, 0xFC] ∧
    decode DataType.int16
        [0x80, 0x00, 0x00, 0x02, 0xFF, 0xFD, 0xFF, 0xFC] 4 =
      .ok [none, some 2, some (-3), some (-4)] := by
  decide

/-- C8: a successful encode emits exactly `width t` bytes per cell and
nothing else: the payload length is the cell count times the cell width. -/
theorem encode_length (t : DataType) (nd : Int) (v : List (Option Int))
    (bytes : List Nat) (h : encode t nd v = .ok bytes) :
    bytes.length = v.length * width t := by
  induction v generalizing bytes with
  | nil =>
    have hb : ([] : List Nat) = bytes :=
      Except.ok.inj (by rw [← h]; rfl)
    simp [← hb]
  | cons c cs ih =>
    rw [encode_cons] at h
    cases hpk : pack t nd c with
    | error e =>
      rw [hpk, exBind_error] at h
      simp at h
    | ok chunk =>
      rw [hpk, exBind_ok] at h
      cases hrest : encode t nd cs with
      | error e =>
        rw [hrest, exBind_error] at h
        simp at h
      | ok rest =>
        rw [hrest, exBind_ok] at h
        have hb : chunk ++ rest = bytes := Except.ok.inj h
        rw [← hb]
        simp only [List.length_append, List.length_cons,
          pack_length t nd c chunk hpk, ih rest hrest]
        ring

/-- Witness for C8: the uint8 test vector has 4 cells of one byte each. -/
theorem encode_length_witness :
    ([255, 2, 3, 4] : List Nat).length =
      ([none, some 2, some 3, some 4] : List (Option Int)).length *
        width DataType.uint8 :=
  encode_length DataType.uint8 (nodata DataType.uint8)
    [none, some 2, some 3, some 4] [255, 2, 3, 4] (by decide)

/-- C9: the derived geotransform has origin `(xmin, ymax)`, pixel width
`cellWidth` and pixel height `-cellHeight`; on the test metadata it is
`(0, 1, 0, 2, 0, -1)`. -/
theorem geotransform_north_up :
    (∀ m : GridMetadata,
      geotransform m = (m.xmin, m.cellWidth, 0, m.ymax, 0, -m.cellHeight)) ∧
    geotransform argDefaultsMeta = (0, 1, 0, 2, 0, -1) :=
  ⟨fun _ => rfl, by norm_num [geotransform, argDefaultsMeta]⟩

/-- C10: encode is a monoid homomorphism from cell sequences to byte
buffers: the empty sequence encodes to the empty buffer, and the encoding of
a concatenation is the concatenation of the encodings. -/
theorem encode_monoid_hom :
    (∀ (t : DataType) (nd : Int), encode t nd [] = .ok []) ∧
    (∀ (t : DataType) (nd : Int) (v1 v2 : List (Option Int))
        (b1 b2 : List Nat), encode t nd v1 = .ok b1 →
      encode t nd v2 = .ok b2 →
      encode t nd (v1 ++ v2) = .ok (b1 ++ b2)) := by
  refine ⟨fun t nd => rfl, fun t nd v1 v2 b1 b2 h1 h2 => ?_⟩
  induction v1 generalizing b1 with
  | nil =>
    have hb : ([] : List Nat) = b1 :=
      Except.ok.inj (by rw [← h1]; rfl)
    rw [← hb]
    simpa using h2
  | cons c cs ih =>
    rw [encode_cons] at h1
    cases hpk : pack t nd c with
    | error e =>
      rw [hpk, exBind_error] at h1
      simp at h1
    | ok chunk =>
      rw [hpk, exBind_ok] at h1
      cases hrest : encode t nd cs with
      | error e =>
        rw [hrest, exBind_error] at h1
        simp at h1
      | ok rest =>
        rw [hrest, exBind_ok] at h1
        have hb : chunk ++ rest = b1 := Except.ok.inj h1
        rw [← hb, List.cons_append, encode_cons, hpk, exBind_ok,
          ih rest hrest, exBind_ok, List.append_assoc]

/-- Witness for C10: concatenating two int16 fragments. -/
theorem encode_monoid_hom_witness :
    encode DataType.int16 (-32768) ([some 1] ++ [some 2]) =
      .ok ([0, 1] ++ [0, 2]) :=
  encode_monoid_hom.2 DataType.int16 (-32768) [some 1] [some 2]
    [0, 1] [0, 2] (by decide) (by decide)

end Arg
